import Mathlib

/-!
Verification development for the fake_useragent selector core.

The definitions below are a shallow embedding of `src/fake_useragent/fake.py`
and `src/fake_useragent/settings.py`:

* `BrowserUserAgentData` embeds the record type of `utils.py` (a `TypedDict`);
  the two numeric fields (`percent`, `version`) are modelled as `Rat`, since
  the code only ever compares them with `>=`.
* The module-level tables `REPLACEMENTS`, `OS_REPLACEMENTS` and `SHORTCUTS`
  are copied from `settings.py`; Python dicts used only via `.get` are
  modelled as association lists.
* The random source is made explicit: `random.choice(l)` becomes
  `randomChoice l pick` for an arbitrary draw `pick : Nat`; on a non-empty
  list it returns `some` element of the list, on the empty list it returns
  `none`, which models the `IndexError` that `random.choice` raises there.
* Exceptions caught by the code (`KeyError`/`IndexError` inside
  `getBrowser`/`__getattr__`) are modelled by the `none` branch of
  `randomChoice`; exceptions raised by the constructor are modelled with
  `Except InitError`.
-/

/-- Embeds `BrowserUserAgentData` from `utils.py`: one catalog record. -/
structure BrowserUserAgentData where
  useragent : String
  percent : Rat
  type : String
  system : String
  browser : String
  version : Rat
  os : String
deriving DecidableEq

/-- Embeds `settings.REPLACEMENTS`. -/
def REPLACEMENTS : List (String × String) := [(" ", ""), ("_", "")]

/-- Embeds `settings.OS_REPLACEMENTS`. -/
def OS_REPLACEMENTS : List (String × List String) := [("windows", ["win10", "win7"])]

/-- Embeds `settings.SHORTCUTS`.  Note the first key is the two-word string
with a space, exactly as written in `settings.py`. -/
def SHORTCUTS : List (String × String) :=
  [("microsoft edge", "edge"), ("google", "chrome"),
   ("googlechrome", "chrome"), ("ff", "firefox")]

/-- Python `s.replace(pattern, "")` for the calls made with the entries of
`REPLACEMENTS`: every pattern there is a single character and every
replacement is the empty string, so the call removes each occurrence of the
character from the string. -/
def pyReplaceEmpty (s pattern : String) : String :=
  ⟨s.data.filter (fun c => String.mk [c] != pattern)⟩

/-- The `for value, replacement in settings.REPLACEMENTS.items(): ...` loop
shared by `getBrowser` and `__getattr__`. -/
def applyReplacements (request : String) : String :=
  REPLACEMENTS.foldl (fun r p => pyReplaceEmpty r p.1) request

/-- Python `str.lower()`; the names handled by the code are ASCII, where it
agrees with `Char.toLower` applied pointwise. -/
def pyLower (s : String) : String := ⟨s.data.map Char.toLower⟩

/-- The normalization performed on the request at the top of `getBrowser`
and `__getattr__`: strip the `REPLACEMENTS` characters, lower-case, then
apply `settings.SHORTCUTS.get(request, request)`. -/
def normalizeName (request : String) : String :=
  let r := pyLower (applyReplacements request)
  match List.lookup r SHORTCUTS with
  | some v => v
  | none => r

/-- The state of a constructed `FakeUserAgent` instance: the configuration
fields assigned by `__init__` plus the loaded catalog `data_browsers`. -/
structure FakeUserAgent where
  browsers : List String
  os : List String
  min_percentage : Rat
  min_version : Rat
  platforms : List String
  fallback : String
  safe_attrs : List String
  data_browsers : List BrowserUserAgentData
deriving DecidableEq

/-- Embeds `FakeUserAgent._filter_useragents`.  The five conjuncts appear in
the order of the lambda in the source; `request` is `None` or a string, and
the extra browser restriction is applied only when the string is non-empty
(Python `if request:`). -/
def FakeUserAgent.filter_useragents (ua : FakeUserAgent)
    (request : Option String) : List BrowserUserAgentData :=
  let filtered_useragents := ua.data_browsers.filter (fun x =>
    ua.browsers.contains x.browser && ua.os.contains x.os
      && ua.platforms.contains x.type
      && decide (ua.min_version ≤ x.version)
      && decide (ua.min_percentage ≤ x.percent))
  match request with
  | some r => if r = "" then filtered_useragents
              else filtered_useragents.filter (fun x => x.browser == r)
  | none => filtered_useragents

/-- Explicit model of `random.choice`: `pick` is the random draw.  On a
non-empty list every element is reachable and the result is always `some`;
on the empty list the result is `none`, modelling the `IndexError` raised by
`random.choice([])`. -/
def randomChoice {α : Type} (l : List α) (pick : Nat) : Option α :=
  l.get? (pick % l.length)

/-- The hard-coded fallback record built in the `except` branch of
`getBrowser`; only `useragent` comes from the configuration. -/
def FakeUserAgent.fallbackRecord (ua : FakeUserAgent) : BrowserUserAgentData :=
  { useragent := ua.fallback, percent := 100, type := "pc",
    system := "Chrome 122.0 Win10", browser := "chrome",
    version := 122, os := "win10" }

/-- The candidate list a request resolves to: the branch on `"random"`
shared by `getBrowser` and `__getattr__` after normalization. -/
def FakeUserAgent.candidates (ua : FakeUserAgent) (request : String) :
    List BrowserUserAgentData :=
  if normalizeName request = "random" then ua.filter_useragents none
  else ua.filter_useragents (some (normalizeName request))

/-- Embeds `FakeUserAgent.getBrowser`: normalize, filter, choose; the
`except (KeyError, IndexError)` branch returns the fallback record. -/
def FakeUserAgent.getBrowser (ua : FakeUserAgent) (request : String)
    (pick : Nat) : BrowserUserAgentData :=
  let request := normalizeName request
  let filtered_browsers :=
    if request = "random" then ua.filter_useragents none
    else ua.filter_useragents (some request)
  match randomChoice filtered_browsers pick with
  | some b => b
  | none => ua.fallbackRecord

/-- Embeds `FakeUserAgent.__getattr__`.  When `attr` is in `safe_attrs` the
source defers to ordinary Python attribute access, which is outside this
model; that branch is `none`.  Otherwise the result is `some` string: on
success the chosen record's `useragent`, in the `except` branch the
configured fallback string. -/
def FakeUserAgent.getattrStr (ua : FakeUserAgent) (attr : String)
    (pick : Nat) : Option String :=
  if ua.safe_attrs.contains attr then none
  else
    let attr := normalizeName attr
    let filtered_browsers :=
      if attr = "random" then ua.filter_useragents none
      else ua.filter_useragents (some attr)
    match randomChoice filtered_browsers pick with
    | some b => some b.useragent
    | none => some ua.fallback

/-- Embeds `FakeUserAgent.__getitem__`, which just calls `__getattr__`. -/
def FakeUserAgent.getitemStr (ua : FakeUserAgent) (attr : String)
    (pick : Nat) : Option String :=
  ua.getattrStr attr pick

/-- A Python value as far as the constructor's type checks are concerned:
a string, an integer, or a float. -/
inductive PyScalar where
  | pstr (s : String)
  | pint (n : Int)
  | pfloat (q : Rat)
deriving DecidableEq

/-- True exactly for `PyScalar.pstr`, Python `isinstance(v, str)`. -/
def PyScalar.isStr : PyScalar → Bool
  | .pstr _ => true
  | _ => false

/-- Digit run to a number, most significant first. -/
def digitsVal (cs : List Char) : Nat :=
  cs.foldl (fun n c => 10 * n + (c.toNat - 48)) 0

/-- Model of the Python builtin `float` applied to a string, on the decimal
fragment of its grammar: an optional sign, then a numeral with an optional
single decimal point and at least one digit overall.  `none` models the
`ValueError` that `float` raises on any other input (such as
`"not-a-number"`). -/
def pyFloatOfString (s : String) : Option Rat :=
  let body : List Char :=
    match s.data with
    | '-' :: rest => rest
    | '+' :: rest => rest
    | cs => cs
  let neg : Bool :=
    match s.data with
    | '-' :: _ => true
    | _ => false
  let intPart := body.takeWhile (fun c => c != '.')
  let rest := body.dropWhile (fun c => c != '.')
  let val : Option Rat :=
    match rest with
    | [] =>
      if intPart ≠ [] ∧ intPart.all Char.isDigit then some (digitsVal intPart)
      else none
    | _ :: frac =>
      if frac.all (fun c => c != '.') = true ∧ (intPart ≠ [] ∨ frac ≠ [])
          ∧ intPart.all Char.isDigit ∧ frac.all Char.isDigit then
        some ((digitsVal intPart : Rat) + (digitsVal frac : Rat) / ((10 : Rat) ^ frac.length))
      else none
  val.map (fun q => if neg then -q else q)

/-- Whether the Python builtin `float` accepts the value, so whether
`_ensure_float` returns rather than raises. -/
def floatConvertible : PyScalar → Bool
  | .pstr s => (pyFloatOfString s).isSome
  | _ => true

/-- The errors `__init__` can raise, by site: the `ValueError` from
`_ensure_float`, the `TypeError` for a non-string `fallback`, and the
`TypeError` listing the offending indices of `safe_attrs`. -/
inductive InitError where
  | floatValueError (v : PyScalar)
  | fallbackTypeError (v : PyScalar)
  | safeAttrsTypeError (badIndices : List Nat)
deriving DecidableEq

/-- Embeds `_ensure_float`: `float(value)`, with the `ValueError` branch. -/
def ensure_float (value : PyScalar) : Except InitError Rat :=
  match value with
  | .pint n => .ok (n : Rat)
  | .pfloat q => .ok q
  | .pstr s =>
    match pyFloatOfString s with
    | some q => .ok q
    | none => .error (.floatValueError value)

/-- The list comprehension
`[idx for idx, is_str in enumerate(str_safe_attrs) if not is_str]` from
`__init__`, with `n` the index of the first element. -/
def falseIndicesFrom (n : Nat) : List Bool → List Nat
  | [] => []
  | b :: rest =>
    if b then falseIndicesFrom (n + 1) rest
    else n :: falseIndicesFrom (n + 1) rest

/-- Embeds `FakeUserAgent.__init__`.  Optional iterable arguments are
already lists of the right element type (their `_ensure_iterable`
conversion succeeds trivially and is not at issue in any claim);
`min_version`, `min_percentage`, `fallback` and the elements of
`safe_attrs` keep their Python dynamic type as `PyScalar`.  The catalog
that `load()` returns is passed in as `catalog`.  The `match` cascade
mirrors the statement order of the source: browsers, then the
`OS_REPLACEMENTS` expansion of `os`, then `_ensure_float` on
`min_percentage` and `min_version`, then platforms, then the `fallback`
type check, then the `safe_attrs` element check that collects every
offending index. -/
def FakeUserAgent.init (browsers os_arg platforms : Option (List String))
    (min_version min_percentage fallback : PyScalar)
    (safe_attrs : Option (List PyScalar))
    (catalog : List BrowserUserAgentData) : Except InitError FakeUserAgent :=
  let browsersL :=
    match browsers with
    | none => ["chrome", "firefox", "safari", "edge"]
    | some l => l
  let osL :=
    (match os_arg with
     | none => ["win10", "macos", "linux"]
     | some l => l).flatMap
      (fun os_name => (List.lookup os_name OS_REPLACEMENTS).getD [os_name])
  match ensure_float min_percentage with
  | .error e => .error e
  | .ok minPercentage =>
    match ensure_float min_version with
    | .error e => .error e
    | .ok minVersion =>
      let platformsL :=
        match platforms with
        | none => ["pc", "mobile", "tablet"]
        | some l => l
      match fallback with
      | .pstr fallbackS =>
        let saL :=
          match safe_attrs with
          | none => []
          | some l => l
        let str_safe_attrs := saL.map PyScalar.isStr
        let bad_indices := falseIndicesFrom 0 str_safe_attrs
        if bad_indices = [] then
          .ok { browsers := browsersL, os := osL,
                min_percentage := minPercentage, min_version := minVersion,
                platforms := platformsL, fallback := fallbackS,
                safe_attrs := saL.filterMap (fun a =>
                  match a with
                  | .pstr s => some s
                  | _ => none),
                data_browsers := catalog }
        else .error (.safeAttrsTypeError bad_indices)
      | v => .error (.fallbackTypeError v)

/-! Concrete catalog records and selector instances used by the closed
theorems below. -/

/-- A chrome catalog record. -/
def chromeRec : BrowserUserAgentData :=
  { useragent := "UA-chrome-120-win10", percent := 50, type := "pc",
    system := "Chrome 120.0 Win10", browser := "chrome",
    version := 120, os := "win10" }

/-- An edge catalog record. -/
def edgeRec : BrowserUserAgentData :=
  { useragent := "UA-edge-121-win10", percent := 30, type := "pc",
    system := "Edge 121.0 Win10", browser := "edge",
    version := 121, os := "win10" }

/-- A selector with the default configuration over a two-record catalog. -/
def uaTest : FakeUserAgent :=
  { browsers := ["chrome", "firefox", "safari", "edge"],
    os := ["win10", "macos", "linux"],
    min_percentage := 0, min_version := 0,
    platforms := ["pc", "mobile", "tablet"],
    fallback := "FALLBACK-UA", safe_attrs := [],
    data_browsers := [chromeRec, edgeRec] }

/-- The selector of the zero-candidate scenario from the spec:
`min_version = 99999` admits no record of the catalog. -/
def uaNoMatch : FakeUserAgent :=
  { browsers := ["chrome", "firefox", "safari", "edge"],
    os := ["win10", "macos", "linux"],
    min_percentage := 0, min_version := 99999,
    platforms := ["pc", "mobile", "tablet"],
    fallback := "FALLBACK-UA", safe_attrs := [],
    data_browsers := [chromeRec, edgeRec] }

/-- The selector that `init` builds from `os = ["windows"]` over a
one-record catalog; its stored os list is the expanded pair. -/
def uaWin : FakeUserAgent :=
  { browsers := ["chrome", "firefox", "safari", "edge"],
    os := ["win10", "win7"],
    min_percentage := 0, min_version := 0,
    platforms := ["pc", "mobile", "tablet"],
    fallback := "fb", safe_attrs := [],
    data_browsers := [chromeRec] }

/-- The record-keeping predicate exactly as the specification words it:
all five configuration conditions hold, and, only when the request is
non-null and non-empty, the record's browser equals the request. -/
def specKeep (ua : FakeUserAgent) (request : Option String)
    (x : BrowserUserAgentData) : Bool :=
  decide (x.browser ∈ ua.browsers) && decide (x.os ∈ ua.os)
    && decide (x.type ∈ ua.platforms)
    && decide (ua.min_version ≤ x.version)
    && decide (ua.min_percentage ≤ x.percent)
    && (match request with
        | none => true
        | some r => if r = "" then true else decide (x.browser = r))

/-! Helper lemmas about characters and the normalizer. -/

/-- Characters kept by `applyReplacements`: neither of the two
`REPLACEMENTS` characters. -/
def keepChar (c : Char) : Bool :=
  (String.mk [c] != "_") && (String.mk [c] != " ")

theorem applyReplacements_data (s : String) :
    (applyReplacements s).data = s.data.filter keepChar := by
  simp only [applyReplacements, REPLACEMENTS, pyReplaceEmpty, List.foldl,
    List.filter_filter]
  rfl

theorem shortcut_values {u v : String}
    (h : List.lookup u SHORTCUTS = some v) :
    v = "edge" ∨ v = "chrome" ∨ v = "firefox" := by
  simp only [SHORTCUTS, List.lookup] at h
  repeat' split at h
  all_goals simp_all

theorem char_toNat_ofNat_valid {n : Nat} (h : n.isValidChar) :
    (Char.ofNat n).toNat = n := by
  simp [Char.ofNat, h, Char.ofNatAux, Char.toNat, UInt32.toNat,
    BitVec.toNat_ofNatLt]

theorem char_eq_of_toNat_eq {a b : Char} (h : a.toNat = b.toNat) : a = b := by
  apply Char.ext
  exact UInt32.toNat.inj h

theorem char_toLower_toNat (c : Char) :
    c.toLower.toNat =
      if 65 ≤ c.toNat ∧ c.toNat ≤ 90 then c.toNat + 32 else c.toNat := by
  simp only [Char.toLower]
  by_cases h : 65 ≤ c.toNat ∧ c.toNat ≤ 90
  · rw [if_pos, if_pos h]
    · exact char_toNat_ofNat_valid (Or.inl (by omega))
    · exact ⟨h.1, h.2⟩
  · rw [if_neg, if_neg h]
    intro hc
    exact h ⟨hc.1, hc.2⟩

theorem char_toLower_idem (c : Char) : c.toLower.toLower = c.toLower := by
  apply char_eq_of_toNat_eq
  rw [char_toLower_toNat c.toLower, char_toLower_toNat c]
  split_ifs <;> omega

theorem char_toLower_ne_of_ne {c d : Char}
    (hd : d.toNat < 97 ∨ 122 < d.toNat) (hne : c ≠ d) : c.toLower ≠ d := by
  intro he
  have ht : c.toLower.toNat = d.toNat := by rw [he]
  rw [char_toLower_toNat] at ht
  by_cases h : 65 ≤ c.toNat ∧ c.toNat ≤ 90
  · rw [if_pos h] at ht
    omega
  · rw [if_neg h] at ht
    exact hne (char_eq_of_toNat_eq ht)

theorem string_mk_inj {l m : List Char} (h : String.mk l = String.mk m) :
    l = m := by
  cases h
  rfl

theorem string_data_ext {s t : String} (h : s.data = t.data) : s = t := by
  cases s
  cases t
  exact congrArg String.mk h

theorem keepChar_iff (c : Char) : keepChar c = true ↔ (c ≠ '_' ∧ c ≠ ' ') := by
  by_cases h1 : c = '_'
  · subst h1
    decide
  · by_cases h2 : c = ' '
    · subst h2
      decide
    · simp only [keepChar, Bool.and_eq_true, bne_iff_ne, ne_eq]
      constructor
      · intro _
        exact ⟨h1, h2⟩
      · intro _
        constructor
        · intro hc
          exact h1 (List.head_eq_of_cons_eq (string_mk_inj hc))
        · intro hc
          exact h2 (List.head_eq_of_cons_eq (string_mk_inj hc))

theorem keepChar_toLower {c : Char} (h : keepChar c = true) :
    keepChar c.toLower = true := by
  rcases (keepChar_iff c).mp h with ⟨h1, h2⟩
  apply (keepChar_iff c.toLower).mpr
  constructor
  · exact char_toLower_ne_of_ne (Or.inl (by decide)) h1
  · exact char_toLower_ne_of_ne (Or.inl (by decide)) h2

theorem pyLower_applyReplacements_fixed (s : String) :
    applyReplacements (pyLower (applyReplacements s))
        = pyLower (applyReplacements s) ∧
    pyLower (pyLower (applyReplacements s)) = pyLower (applyReplacements s) := by
  constructor
  · apply string_data_ext
    rw [applyReplacements_data]
    apply List.filter_eq_self.mpr
    intro a ha
    simp only [pyLower] at ha
    rw [applyReplacements_data] at ha
    rcases List.mem_map.mp ha with ⟨b, hb, rfl⟩
    exact keepChar_toLower (List.of_mem_filter hb)
  · apply string_data_ext
    simp only [pyLower, List.map_map]
    apply List.map_congr_left
    intro a _
    exact char_toLower_idem a

theorem normalizeName_idem (s : String) :
    normalizeName (normalizeName s) = normalizeName s := by
  have hs : normalizeName s =
      (match List.lookup (pyLower (applyReplacements s)) SHORTCUTS with
       | some v => v
       | none => pyLower (applyReplacements s)) := rfl
  cases h : List.lookup (pyLower (applyReplacements s)) SHORTCUTS with
  | some v =>
    have hv2 : normalizeName s = v := by rw [hs, h]
    rw [hv2]
    rcases shortcut_values h with hv | hv | hv <;> subst hv <;> decide
  | none =>
    have hu : normalizeName s = pyLower (applyReplacements s) := by rw [hs, h]
    rw [hu]
    show (match
        List.lookup (pyLower (applyReplacements (pyLower (applyReplacements s))))
          SHORTCUTS with
      | some v => v
      | none => pyLower (applyReplacements (pyLower (applyReplacements s))))
        = pyLower (applyReplacements s)
    rw [(pyLower_applyReplacements_fixed s).1,
      (pyLower_applyReplacements_fixed s).2, h]

theorem randomChoice_nil {α : Type} (pick : Nat) :
    randomChoice ([] : List α) pick = none := rfl

theorem randomChoice_mem {α : Type} {l : List α} {pick : Nat} {a : α}
    (h : randomChoice l pick = some a) : a ∈ l :=
  List.get?_mem h

theorem randomChoice_of_ne_nil {α : Type} {l : List α} (h : l ≠ []) (pick : Nat) :
    ∃ a, randomChoice l pick = some a ∧ a ∈ l := by
  have hlen : 0 < l.length := List.length_pos.mpr h
  have hlt : pick % l.length < l.length := Nat.mod_lt _ hlen
  refine ⟨l.get ⟨pick % l.length, hlt⟩, ?_, List.get_mem _ _ _⟩
  exact List.get?_eq_get hlt

theorem getBrowser_eq_choice (ua : FakeUserAgent) (request : String) (pick : Nat) :
    ua.getBrowser request pick =
      match randomChoice (ua.candidates request) pick with
      | some b => b
      | none => ua.fallbackRecord := rfl

theorem getattrStr_eq_choice {ua : FakeUserAgent} {attr : String}
    (h : ua.safe_attrs.contains attr = false) (pick : Nat) :
    ua.getattrStr attr pick =
      match randomChoice (ua.candidates attr) pick with
      | some b => some b.useragent
      | none => some ua.fallback := by
  unfold FakeUserAgent.getattrStr
  rw [if_neg]
  · rfl
  · simpa using h

/-- C1: with an empty candidate set the record entry point returns the fixed
fallback record, whose only configuration-derived field is `useragent`, and
the string entry points return exactly the configured fallback string. -/
theorem c1_empty_filter_fallback (ua : FakeUserAgent) (request : String)
    (pick : Nat) (hempty : ua.candidates request = [])
    (hsafe : ua.safe_attrs.contains request = false) :
    ua.getBrowser request pick =
      { useragent := ua.fallback, percent := 100, type := "pc",
        system := "Chrome 122.0 Win10", browser := "chrome",
        version := 122, os := "win10" } ∧
    ua.getattrStr request pick = some ua.fallback ∧
    ua.getitemStr request pick = some ua.fallback := by
  refine ⟨?_, ?_, ?_⟩
  · rw [getBrowser_eq_choice, hempty, randomChoice_nil]
    rfl
  · rw [getattrStr_eq_choice hsafe, hempty, randomChoice_nil]
  · show ua.getattrStr request pick = some ua.fallback
    rw [getattrStr_eq_choice hsafe, hempty, randomChoice_nil]

/-- C1 witness: a configuration with `min_version = 99999` admits no
candidate, and the entry points fall back. -/
theorem c1_witness :
    uaNoMatch.getBrowser "chrome" 0 =
      { useragent := "FALLBACK-UA", percent := 100, type := "pc",
        system := "Chrome 122.0 Win10", browser := "chrome",
        version := 122, os := "win10" } ∧
    uaNoMatch.getattrStr "chrome" 0 = some "FALLBACK-UA" ∧
    uaNoMatch.getitemStr "chrome" 0 = some "FALLBACK-UA" :=
  c1_empty_filter_fallback uaNoMatch "chrome" 0 (by decide) (by decide)

/-- C2: the filter returns exactly the records satisfying all the
configured conditions plus the optional browser restriction, as a
subsequence of the catalog in catalog order. -/
theorem c2_filter_exact (ua : FakeUserAgent) (request : Option String) :
    ua.filter_useragents request
        = ua.data_browsers.filter (specKeep ua request) ∧
    List.Sublist (ua.filter_useragents request) ua.data_browsers := by
  have hmain : ua.filter_useragents request
      = ua.data_browsers.filter (specKeep ua request) := by
    cases request with
    | none =>
      simp only [FakeUserAgent.filter_useragents, List.contains,
        List.elem_eq_mem]
      apply List.filter_congr
      intro x _
      simp [specKeep]
    | some r =>
      by_cases hr : r = ""
      · subst hr
        simp only [FakeUserAgent.filter_useragents, if_pos rfl,
          List.contains, List.elem_eq_mem]
        apply List.filter_congr
        intro x _
        simp [specKeep]
      · simp only [FakeUserAgent.filter_useragents, if_neg hr]
        rw [List.filter_filter]
        simp only [List.contains, List.elem_eq_mem]
        apply List.filter_congr
        intro x _
        simp only [specKeep, if_neg hr, Bool.beq_eq_decide_eq]
        cases h1 : decide (x.browser ∈ ua.browsers) <;>
          cases h2 : decide (x.os ∈ ua.os) <;>
            cases h3 : decide (x.type ∈ ua.platforms) <;>
              cases h4 : decide (ua.min_version ≤ x.version) <;>
                cases h5 : decide (ua.min_percentage ≤ x.percent) <;>
                  cases h6 : decide (x.browser = r) <;> simp_all
  constructor
  · exact hmain
  · rw [hmain]
    exact List.filter_sublist ua.data_browsers

theorem mem_filter_useragents {ua : FakeUserAgent} {req : Option String}
    {x : BrowserUserAgentData} (h : x ∈ ua.filter_useragents req) :
    x ∈ ua.data_browsers := by
  cases req with
  | none => exact List.mem_of_mem_filter h
  | some r =>
    by_cases hr : r = ""
    · subst hr
      simp only [FakeUserAgent.filter_useragents, if_pos rfl] at h
      exact List.mem_of_mem_filter h
    · simp only [FakeUserAgent.filter_useragents, if_neg hr] at h
      exact List.mem_of_mem_filter (List.mem_of_mem_filter h)

theorem mem_candidates {ua : FakeUserAgent} {request : String}
    {x : BrowserUserAgentData} (h : x ∈ ua.candidates request) :
    x ∈ ua.data_browsers := by
  unfold FakeUserAgent.candidates at h
  by_cases hr : normalizeName request = "random"
  · rw [if_pos hr] at h
    exact mem_filter_useragents h
  · rw [if_neg hr] at h
    exact mem_filter_useragents h

/-- C3: the shortcut table's first key is the two-word string with a space,
which the preceding space-stripping normalization makes unreachable: the
normalized form "microsoftedge" is not in the table, so requesting
"Microsoft Edge" filters on the browser name "microsoftedge", finds no
candidate, and falls back instead of resolving like "edge". -/
theorem c3_microsoftedge_shortcut_dead :
    List.lookup "microsoft edge" SHORTCUTS = some "edge" ∧
    List.lookup "microsoftedge" SHORTCUTS = none ∧
    normalizeName "Microsoft Edge" = "microsoftedge" ∧
    normalizeName "microsoftedge" = "microsoftedge" ∧
    uaTest.candidates "edge" = [edgeRec] ∧
    uaTest.candidates "Microsoft Edge" = [] ∧
    uaTest.getBrowser "Microsoft Edge" 0 = uaTest.fallbackRecord ∧
    uaTest.getattrStr "Microsoft Edge" 0 = some "FALLBACK-UA" := by
  decide

/-- C4 counterexample: the empty request string has the empty normalized
form, which is neither "random" nor any record's browser name, yet the
code skips the browser restriction (Python falsiness) and returns a
catalog record rather than the fallback. -/
theorem c4_counterexample :
    normalizeName "" = "" ∧
    (∀ x ∈ uaTest.data_browsers, x.browser ≠ normalizeName "") ∧
    uaTest.safe_attrs.contains "" = false ∧
    uaTest.getBrowser "" 0 = chromeRec ∧
    uaTest.getBrowser "" 0 ≠ uaTest.fallbackRecord ∧
    uaTest.getattrStr "" 0 = some "UA-chrome-120-win10" ∧
    "UA-chrome-120-win10" ≠ uaTest.fallback := by
  decide

/-- C4 (amended): for every request whose normalized form is non-empty,
not "random", and not the browser of any catalog record, both entry points
fall back: the record entry point returns the fallback record and the
string entry point returns the configured fallback string, never a catalog
record and never an exception. -/
theorem c4_unrecognized_fallback (ua : FakeUserAgent) (request : String)
    (pick : Nat)
    (hne : normalizeName request ≠ "")
    (hnr : normalizeName request ≠ "random")
    (hnb : ∀ x ∈ ua.data_browsers, x.browser ≠ normalizeName request)
    (hsafe : ua.safe_attrs.contains request = false) :
    ua.getBrowser request pick = ua.fallbackRecord ∧
    ua.getattrStr request pick = some ua.fallback := by
  have hempty : ua.candidates request = [] := by
    unfold FakeUserAgent.candidates
    rw [if_neg hnr]
    simp only [FakeUserAgent.filter_useragents, if_neg hne]
    apply List.filter_eq_nil_iff.mpr
    intro a ha
    have hmem : a ∈ ua.data_browsers := List.mem_of_mem_filter ha
    simp only [beq_iff_eq]
    exact hnb a hmem
  constructor
  · rw [getBrowser_eq_choice, hempty, randomChoice_nil]
  · rw [getattrStr_eq_choice hsafe, hempty, randomChoice_nil]

/-- C4 witness: requesting "netscape" against the test catalog falls back. -/
theorem c4_witness :
    uaTest.getBrowser "netscape" 7 = uaTest.fallbackRecord ∧
    uaTest.getattrStr "netscape" 7 = some "FALLBACK-UA" :=
  c4_unrecognized_fallback uaTest "netscape" 7 (by decide) (by decide)
    (by decide) (by decide)

/-- C5: for keys outside safe_attrs the entry points are total: the string
entry point always returns some string, which is either a filtered
candidate's useragent or the configured fallback, and the record entry
point returns either a filtered candidate or the fallback record; the
empty-candidate IndexError is absorbed internally. -/
theorem c5_no_exception_total (ua : FakeUserAgent) (key : String) (pick : Nat)
    (hsafe : ua.safe_attrs.contains key = false) :
    (∃ s, ua.getattrStr key pick = some s ∧
      (s = ua.fallback ∨ ∃ x, x ∈ ua.candidates key ∧ s = x.useragent)) ∧
    (ua.getBrowser key pick = ua.fallbackRecord ∨
      ua.getBrowser key pick ∈ ua.candidates key) := by
  constructor
  · rw [getattrStr_eq_choice hsafe]
    cases h : randomChoice (ua.candidates key) pick with
    | some b => exact ⟨b.useragent, rfl, Or.inr ⟨b, randomChoice_mem h, rfl⟩⟩
    | none => exact ⟨ua.fallback, rfl, Or.inl rfl⟩
  · rw [getBrowser_eq_choice]
    cases h : randomChoice (ua.candidates key) pick with
    | some b => exact Or.inr (randomChoice_mem h)
    | none => exact Or.inl rfl

/-- C5 witness at a successful and type-correct concrete lookup. -/
theorem c5_witness :
    (∃ s, uaTest.getattrStr "chrome" 0 = some s ∧
      (s = uaTest.fallback ∨
        ∃ x, x ∈ uaTest.candidates "chrome" ∧ s = x.useragent)) ∧
    (uaTest.getBrowser "chrome" 0 = uaTest.fallbackRecord ∨
      uaTest.getBrowser "chrome" 0 ∈ uaTest.candidates "chrome") :=
  c5_no_exception_total uaTest "chrome" 0 (by decide)

/-- C6: for keys outside safe_attrs and with the same random draw, the
string entry points return exactly the useragent field of the record the
record entry point returns, in the successful and the fallback case
alike. -/
theorem c6_entry_points_agree (ua : FakeUserAgent) (key : String) (pick : Nat)
    (hsafe : ua.safe_attrs.contains key = false) :
    ua.getattrStr key pick = some ((ua.getBrowser key pick).useragent) ∧
    ua.getitemStr key pick = some ((ua.getBrowser key pick).useragent) := by
  have h1 : ua.getattrStr key pick
      = some ((ua.getBrowser key pick).useragent) := by
    rw [getattrStr_eq_choice hsafe, getBrowser_eq_choice]
    cases h : randomChoice (ua.candidates key) pick with
    | some b => rfl
    | none => rfl
  exact ⟨h1, h1⟩

/-- C6 witness, covering a successful lookup and a fallback lookup. -/
theorem c6_witness :
    (uaTest.getattrStr "edge" 0
        = some ((uaTest.getBrowser "edge" 0).useragent)) ∧
    (uaTest.getitemStr "edge" 0
        = some ((uaTest.getBrowser "edge" 0).useragent)) :=
  c6_entry_points_agree uaTest "edge" 0 (by decide)

/-- C10: a successful (non-fallback) record lookup returns an exact member
of the loaded catalog, and the string entry point on "random" returns a
useragent present in the filtered candidate set, or exactly the configured
fallback when that set is empty. -/
theorem c10_roundtrip_membership (ua : FakeUserAgent) (request : String)
    (pick : Nat) (hsafe : ua.safe_attrs.contains "random" = false) :
    (ua.candidates request ≠ [] →
      ua.getBrowser request pick ∈ ua.data_browsers) ∧
    (ua.candidates "random" = [] →
      ua.getattrStr "random" pick = some ua.fallback) ∧
    (ua.candidates "random" ≠ [] →
      ∃ x, x ∈ ua.candidates "random" ∧
        ua.getattrStr "random" pick = some x.useragent) := by
  refine ⟨?_, ?_, ?_⟩
  · intro hne
    rw [getBrowser_eq_choice]
    rcases randomChoice_of_ne_nil hne pick with ⟨a, ha, hmem⟩
    rw [ha]
    exact mem_candidates hmem
  · intro hcand
    rw [getattrStr_eq_choice hsafe, hcand, randomChoice_nil]
  · intro hne
    rw [getattrStr_eq_choice hsafe]
    rcases randomChoice_of_ne_nil hne pick with ⟨a, ha, hmem⟩
    rw [ha]
    exact ⟨a, hmem, rfl⟩

/-- C10 witness at a non-empty candidate set. -/
theorem c10_witness :
    uaTest.getBrowser "chrome" 1 ∈ uaTest.data_browsers ∧
    (∃ x, x ∈ uaTest.candidates "random" ∧
      uaTest.getattrStr "random" 1 = some x.useragent) := by
  constructor
  · exact (c10_roundtrip_membership uaTest "chrome" 1 (by decide)).1 (by decide)
  · exact (c10_roundtrip_membership uaTest "chrome" 1 (by decide)).2.2 (by decide)

/-- C8: normalization is idempotent, and the spaced, underscored,
concatenated and shortcut spellings of "google chrome" all resolve to the
same candidate set as requesting "chrome" directly, for every
configuration and catalog. -/
theorem c8_normalization_insensitive (s : String) (ua : FakeUserAgent) :
    normalizeName (normalizeName s) = normalizeName s ∧
    ua.candidates "Google Chrome" = ua.candidates "chrome" ∧
    ua.candidates "google_chrome" = ua.candidates "chrome" ∧
    ua.candidates "googlechrome" = ua.candidates "chrome" ∧
    ua.candidates "google" = ua.candidates "chrome" := by
  have h1 : normalizeName "Google Chrome" = "chrome" := by decide
  have h2 : normalizeName "google_chrome" = "chrome" := by decide
  have h3 : normalizeName "googlechrome" = "chrome" := by decide
  have h4 : normalizeName "google" = "chrome" := by decide
  have h5 : normalizeName "chrome" = "chrome" := by decide
  refine ⟨normalizeName_idem s, ?_, ?_, ?_, ?_⟩ <;>
    · unfold FakeUserAgent.candidates
      rw [h5]
      first
      | rw [h1]
      | rw [h2]
      | rw [h3]
      | rw [h4]

theorem os_flatMap_windows (pre post : List String) :
    (pre ++ "windows" :: post).flatMap
        (fun os_name => (List.lookup os_name OS_REPLACEMENTS).getD [os_name])
      = (pre ++ "win10" :: "win7" :: post).flatMap
        (fun os_name => (List.lookup os_name OS_REPLACEMENTS).getD [os_name]) := by
  rw [List.flatMap_append, List.flatMap_append]
  simp [OS_REPLACEMENTS, List.lookup]

/-- C7: supplying the token "windows" in the os argument yields exactly the
selector obtained by supplying ["win10", "win7"] in its place, so the two
selectors have identical filtered candidate sets over every catalog and
request. -/
theorem c7_windows_expansion (browsers platforms : Option (List String))
    (mv mp fb : PyScalar) (sa : Option (List PyScalar))
    (catalog : List BrowserUserAgentData) (pre post : List String) :
    FakeUserAgent.init browsers (some (pre ++ "windows" :: post)) platforms
        mv mp fb sa catalog
      = FakeUserAgent.init browsers (some (pre ++ "win10" :: "win7" :: post))
        platforms mv mp fb sa catalog ∧
    (∀ ua1 ua2,
      FakeUserAgent.init browsers (some (pre ++ "windows" :: post)) platforms
          mv mp fb sa catalog = .ok ua1 →
      FakeUserAgent.init browsers (some (pre ++ "win10" :: "win7" :: post))
          platforms mv mp fb sa catalog = .ok ua2 →
      ∀ request, ua1.filter_useragents request = ua2.filter_useragents request) := by
  have heq : FakeUserAgent.init browsers (some (pre ++ "windows" :: post))
      platforms mv mp fb sa catalog
        = FakeUserAgent.init browsers (some (pre ++ "win10" :: "win7" :: post))
          platforms mv mp fb sa catalog := by
    simp only [FakeUserAgent.init]
    rw [os_flatMap_windows]
  constructor
  · exact heq
  · intro ua1 ua2 h1 h2 request
    rw [heq, h2] at h1
    cases h1
    rfl

theorem ensure_float_error {v : PyScalar} (h : floatConvertible v = false) :
    ensure_float v = .error (.floatValueError v) := by
  cases v with
  | pstr s =>
    simp only [floatConvertible] at h
    cases hpf : pyFloatOfString s with
    | some q =>
      rw [hpf] at h
      cases h
    | none => simp [ensure_float, hpf]
  | pint n => simp [floatConvertible] at h
  | pfloat q => simp [floatConvertible] at h

theorem ensure_float_ok {v : PyScalar} (h : floatConvertible v = true) :
    ∃ q, ensure_float v = .ok q := by
  cases v with
  | pstr s =>
    simp only [floatConvertible, Option.isSome_iff_exists] at h
    rcases h with ⟨q, hq⟩
    exact ⟨q, by simp [ensure_float, hq]⟩
  | pint n => exact ⟨(n : Rat), rfl⟩
  | pfloat q => exact ⟨q, rfl⟩

theorem mem_falseIndicesFrom (l : List Bool) :
    ∀ (n i : Nat), i ∈ falseIndicesFrom n l ↔
      (n ≤ i ∧ i - n < l.length ∧ l.getD (i - n) true = false) := by
  induction l with
  | nil =>
    intro n i
    simp [falseIndicesFrom]
  | cons b rest ih =>
    intro n i
    cases b with
    | true =>
      show i ∈ falseIndicesFrom (n + 1) rest ↔ _
      rw [ih (n + 1) i]
      constructor
      · rintro ⟨h1, h2, h3⟩
        refine ⟨by omega, by simp only [List.length_cons]; omega, ?_⟩
        have hin : i - n = (i - (n + 1)) + 1 := by omega
        rw [hin, List.getD_cons_succ]
        exact h3
      · rintro ⟨h1, h2, h3⟩
        rcases Nat.lt_or_ge i (n + 1) with hlt | hge
        · have hz : i - n = 0 := by omega
          rw [hz, List.getD_cons_zero] at h3
          cases h3
        · refine ⟨hge, by simp only [List.length_cons] at h2; omega, ?_⟩
          have hin : i - n = (i - (n + 1)) + 1 := by omega
          rw [hin, List.getD_cons_succ] at h3
          exact h3
    | false =>
      show i ∈ n :: falseIndicesFrom (n + 1) rest ↔ _
      rw [List.mem_cons, ih (n + 1) i]
      constructor
      · rintro (rfl | ⟨h1, h2, h3⟩)
        · exact ⟨Nat.le_refl i, by simp, by simp⟩
        · refine ⟨by omega, by simp only [List.length_cons]; omega, ?_⟩
          have hin : i - n = (i - (n + 1)) + 1 := by omega
          rw [hin, List.getD_cons_succ]
          exact h3
      · rintro ⟨h1, h2, h3⟩
        rcases Nat.lt_or_ge i (n + 1) with hlt | hge
        · left
          omega
        · right
          refine ⟨hge, by simp only [List.length_cons] at h2; omega, ?_⟩
          have hin : i - n = (i - (n + 1)) + 1 := by omega
          rw [hin, List.getD_cons_succ] at h3
          exact h3

theorem init_error_of_mp {browsers os_arg platforms : Option (List String)}
    {mv mp fb : PyScalar} {sa : Option (List PyScalar)}
    {catalog : List BrowserUserAgentData} {e : InitError}
    (h : ensure_float mp = .error e) :
    FakeUserAgent.init browsers os_arg platforms mv mp fb sa catalog
      = .error e := by
  simp only [FakeUserAgent.init, h]

theorem init_error_of_mv {browsers os_arg platforms : Option (List String)}
    {mv mp fb : PyScalar} {sa : Option (List PyScalar)}
    {catalog : List BrowserUserAgentData} {q : Rat} {e : InitError}
    (hmp : ensure_float mp = .ok q) (h : ensure_float mv = .error e) :
    FakeUserAgent.init browsers os_arg platforms mv mp fb sa catalog
      = .error e := by
  simp only [FakeUserAgent.init, hmp, h]

theorem init_error_of_fallback {browsers os_arg platforms : Option (List String)}
    {mv mp fb : PyScalar} {sa : Option (List PyScalar)}
    {catalog : List BrowserUserAgentData} {q q' : Rat}
    (hmp : ensure_float mp = .ok q) (hmv : ensure_float mv = .ok q')
    (hfb : fb.isStr = false) :
    FakeUserAgent.init browsers os_arg platforms mv mp fb sa catalog
      = .error (.fallbackTypeError fb) := by
  cases fb with
  | pstr s => cases hfb
  | pint n => simp only [FakeUserAgent.init, hmp, hmv]
  | pfloat r => simp only [FakeUserAgent.init, hmp, hmv]

theorem init_error_of_safe_attrs {browsers os_arg platforms : Option (List String)}
    {mv mp : PyScalar} {sa : List PyScalar}
    {catalog : List BrowserUserAgentData} {q q' : Rat} {s : String}
    (hmp : ensure_float mp = .ok q) (hmv : ensure_float mv = .ok q')
    (hbad : falseIndicesFrom 0 (sa.map PyScalar.isStr) ≠ []) :
    FakeUserAgent.init browsers os_arg platforms mv mp (.pstr s) (some sa) catalog
      = .error (.safeAttrsTypeError (falseIndicesFrom 0 (sa.map PyScalar.isStr))) := by
  simp only [FakeUserAgent.init, hmp, hmv, if_neg hbad]

theorem bad_indices_nonempty {sa : List PyScalar}
    (h : ∃ a, a ∈ sa ∧ a.isStr = false) :
    falseIndicesFrom 0 (sa.map PyScalar.isStr) ≠ [] := by
  rcases h with ⟨a, hmem, hstr⟩
  rcases List.mem_iff_get.mp hmem with ⟨⟨i, hi⟩, hget⟩
  intro hnil
  have hmemF : i ∈ falseIndicesFrom 0 (sa.map PyScalar.isStr) := by
    apply (mem_falseIndicesFrom (sa.map PyScalar.isStr) 0 i).mpr
    refine ⟨Nat.zero_le _, by simpa using hi, ?_⟩
    have hga : sa[i] = a := by
      rw [← hget]
      simp [List.get_eq_getElem]
    rw [Nat.sub_zero, List.getD_eq_getElem?_getD, List.getElem?_map,
      List.getElem?_eq_getElem hi, hga]
    exact hstr
  rw [hnil] at hmemF
  cases hmemF

theorem bad_indices_mem (sa : List PyScalar) (i : Nat) :
    i ∈ falseIndicesFrom 0 (sa.map PyScalar.isStr) ↔
      (i < sa.length ∧ (sa.getD i (.pstr "")).isStr = false) := by
  rw [mem_falseIndicesFrom]
  simp only [Nat.zero_le, true_and, Nat.sub_zero, List.length_map]
  constructor
  · rintro ⟨h1, h2⟩
    refine ⟨h1, ?_⟩
    rw [List.getD_eq_getElem?_getD, List.getElem?_map,
      List.getElem?_eq_getElem h1] at h2
    rw [List.getD_eq_getElem?_getD, List.getElem?_eq_getElem h1]
    exact h2
  · rintro ⟨h1, h2⟩
    refine ⟨h1, ?_⟩
    rw [List.getD_eq_getElem?_getD, List.getElem?_eq_getElem h1] at h2
    rw [List.getD_eq_getElem?_getD, List.getElem?_map,
      List.getElem?_eq_getElem h1]
    exact h2

/-- C9: construction fails when min_version or min_percentage is not
convertible to a float, when fallback is not a string, or when safe_attrs
contains a non-string element; in the safe_attrs case the error carries
exactly the positions of all non-string elements, and the three concrete
scenarios of the spec produce the corresponding errors, with
safe_attrs=["ok", 5] reported at index 1. -/
theorem c9_construction_errors (browsers os_arg platforms : Option (List String))
    (mv mp fb : PyScalar) (sa : List PyScalar)
    (catalog : List BrowserUserAgentData) :
    (floatConvertible mv = false ∨ floatConvertible mp = false →
      ∃ e, FakeUserAgent.init browsers os_arg platforms mv mp fb (some sa)
        catalog = .error e) ∧
    (fb.isStr = false →
      ∃ e, FakeUserAgent.init browsers os_arg platforms mv mp fb (some sa)
        catalog = .error e) ∧
    ((∃ a, a ∈ sa ∧ a.isStr = false) →
      ∃ e, FakeUserAgent.init browsers os_arg platforms mv mp fb (some sa)
        catalog = .error e) ∧
    (∀ s, fb = .pstr s → floatConvertible mv = true →
      floatConvertible mp = true → (∃ a, a ∈ sa ∧ a.isStr = false) →
      ∃ bad, FakeUserAgent.init browsers os_arg platforms mv mp fb (some sa)
          catalog = .error (.safeAttrsTypeError bad) ∧ bad ≠ [] ∧
        (∀ i, i ∈ bad ↔
          (i < sa.length ∧ (sa.getD i (.pstr "")).isStr = false))) ∧
    FakeUserAgent.init none none none (.pstr "not-a-number") (.pfloat 0)
        (.pstr "fb") (some []) catalog
      = .error (.floatValueError (.pstr "not-a-number")) ∧
    FakeUserAgent.init none none none (.pfloat 0) (.pfloat 0) (.pint 123)
        (some []) catalog
      = .error (.fallbackTypeError (.pint 123)) ∧
    FakeUserAgent.init none none none (.pfloat 0) (.pfloat 0) (.pstr "fb")
        (some [.pstr "ok", .pint 5]) catalog
      = .error (.safeAttrsTypeError [1]) := by
  refine ⟨?_, ?_, ?_, ?_, rfl, rfl, rfl⟩
  · intro h
    cases hmpc : floatConvertible mp with
    | false => exact ⟨_, init_error_of_mp (ensure_float_error hmpc)⟩
    | true =>
      rcases ensure_float_ok hmpc with ⟨q, hq⟩
      have hmvc : floatConvertible mv = false := by
        rcases h with h | h
        · exact h
        · rw [h] at hmpc
          cases hmpc
      exact ⟨_, init_error_of_mv hq (ensure_float_error hmvc)⟩
  · intro hfb
    cases hmpc : floatConvertible mp with
    | false => exact ⟨_, init_error_of_mp (ensure_float_error hmpc)⟩
    | true =>
      rcases ensure_float_ok hmpc with ⟨q, hq⟩
      cases hmvc : floatConvertible mv with
      | false => exact ⟨_, init_error_of_mv hq (ensure_float_error hmvc)⟩
      | true =>
        rcases ensure_float_ok hmvc with ⟨q', hq'⟩
        exact ⟨_, init_error_of_fallback hq hq' hfb⟩
  · intro hsa
    cases hmpc : floatConvertible mp with
    | false => exact ⟨_, init_error_of_mp (ensure_float_error hmpc)⟩
    | true =>
      rcases ensure_float_ok hmpc with ⟨q, hq⟩
      cases hmvc : floatConvertible mv with
      | false => exact ⟨_, init_error_of_mv hq (ensure_float_error hmvc)⟩
      | true =>
        rcases ensure_float_ok hmvc with ⟨q', hq'⟩
        cases hfb : fb.isStr with
        | false => exact ⟨_, init_error_of_fallback hq hq' hfb⟩
        | true =>
          cases fb with
          | pstr s =>
            exact ⟨_, init_error_of_safe_attrs hq hq'
              (bad_indices_nonempty hsa)⟩
          | pint n => cases hfb
          | pfloat r => cases hfb
  · intro s hfb hmvc hmpc hsa
    subst hfb
    rcases ensure_float_ok hmpc with ⟨q, hq⟩
    rcases ensure_float_ok hmvc with ⟨q', hq'⟩
    refine ⟨falseIndicesFrom 0 (sa.map PyScalar.isStr),
      init_error_of_safe_attrs hq hq' (bad_indices_nonempty hsa),
      bad_indices_nonempty hsa, ?_⟩
    intro i
    exact bad_indices_mem sa i

/-- C9 witness: safe_attrs=["ok", 5] fails construction with the error
naming exactly index 1. -/
theorem c9_witness :
    ∃ bad, FakeUserAgent.init none none none (.pfloat 0) (.pfloat 0)
        (.pstr "fb") (some [PyScalar.pstr "ok", PyScalar.pint 5]) []
        = .error (.safeAttrsTypeError bad) ∧ bad ≠ [] ∧
      (∀ i, i ∈ bad ↔
        (i < 2 ∧ (([PyScalar.pstr "ok", PyScalar.pint 5]).getD i
          (.pstr "")).isStr = false)) :=
  (c9_construction_errors none none none (.pfloat 0) (.pfloat 0)
      (.pstr "fb") [PyScalar.pstr "ok", PyScalar.pint 5] []).2.2.2.1
    "fb" rfl rfl rfl ⟨PyScalar.pint 5, by decide, rfl⟩

/-- C7 witness: the two concrete constructions agree, and the selectors
they produce filter identically. -/
theorem c7_witness :
    (FakeUserAgent.init none (some ["windows"]) none (.pfloat 0) (.pfloat 0)
        (.pstr "fb") none [chromeRec]
      = FakeUserAgent.init none (some ["win10", "win7"]) none (.pfloat 0)
        (.pfloat 0) (.pstr "fb") none [chromeRec]) ∧
    uaWin.filter_useragents (some "chrome")
      = uaWin.filter_useragents (some "chrome") :=
  ⟨(c7_windows_expansion none none (.pfloat 0) (.pfloat 0) (.pstr "fb")
      none [chromeRec] [] []).1,
    (c7_windows_expansion none none (.pfloat 0) (.pfloat 0) (.pstr "fb")
      none [chromeRec] [] []).2 uaWin uaWin rfl rfl (some "chrome")⟩
